import Mathlib

/-!
# Audio Ingestion Service — verification of the natural-language specification

Shallow embedding of `src/audio.py` (a FastAPI service with four routes:
`POST /upload`, `GET /health`, `GET /files`, `GET /`).

Modelling choices:
* Paths are `String`s; path surgery (`os.path.splitext`, `os.path.basename`,
  `os.path.join`, the parent of a path) follows `posixpath` semantics.
* The filesystem is an explicit state: a list of existing directory paths,
  an association list from file path to byte content (bytes as `List Nat`),
  and an optional injected I/O fault standing for an arbitrary failure of
  `open(...)` (disk full, permissions, ...).
* `open(path, 'wb')` succeeds iff no fault is injected, the parent directory
  of `path` exists, and `path` is not itself a directory; on success the file
  content is replaced atomically (truncate-and-write collapsed to one step).
* `HTTPException(status_code, detail)` is an error value `HTTPError`;
  FastAPI turns a normal return into HTTP 200.
* Python's `round(x, 2)` (round-half-to-even) is modelled on `ℚ`; the float
  values `n / 2^20` for `n ≤ 100·2^20` are exactly representable, and the
  decimal ties `.xx5` of such values have power-of-two denominators, so the
  rational model agrees with CPython's correctly-rounded `round` on floats.
-/

namespace AudioIngestion

/-- Split a list at the LAST occurrence of `sep`:
`splitLast sep l = some (a, b)` iff `l = a ++ sep :: b` with `sep ∉ b`. -/
def splitLast (sep : Char) : List Char → Option (List Char × List Char)
  | [] => none
  | c :: cs =>
    match splitLast sep cs with
    | some (a, b) => some (c :: a, b)
    | none => if c = sep then some ([], cs) else none

/-- `os.path.basename` (posix): the part after the last `'/'`. -/
def basenameStr (p : String) : String :=
  match splitLast '/' p.data with
  | some (_, b) => String.mk b
  | none => p

/-- The parent directory of a path: the part before the last `'/'`
(`""` when the path has no `'/'`; the root `"/"` is represented as `""`).
This is what resolving `open(path)` requires to exist. -/
def dirnameStr (p : String) : String :=
  match splitLast '/' p.data with
  | some (a, _) => String.mk a
  | none => ""

/-- `os.path.splitext(p)[1]` (posix): the extension including its dot.
The extension starts at the last dot of the basename, except that leading
dots of the basename never start an extension (so `".mp3"` has none). -/
def extname (p : String) : String :=
  let base : List Char :=
    match splitLast '/' p.data with
    | some (_, b) => b
    | none => p.data
  match splitLast '.' (base.dropWhile (· = '.')) with
  | some (_, e) => String.mk ('.' :: e)
  | none => ""

/-- `os.path.join(a, b)` (posix, two arguments): `b` wins when absolute,
otherwise a `'/'` is inserted unless `a` is empty or already ends in one. -/
def joinPath (a b : String) : String :=
  if b.data.head? = some '/' then b
  else if a = "" ∨ a.data.getLast? = some '/' then a ++ b
  else a ++ "/" ++ b

/-- `str.lstrip('.')`: remove all leading dots. -/
def lstripDots (s : String) : String :=
  String.mk (s.data.dropWhile (· = '.'))

/-- `str.lower()`, character by character (ASCII case folding — the only
case the eight-element allow-list can react to). -/
def lowerStr (s : String) : String :=
  String.mk (s.data.map Char.toLower)

/-- If `k` is a direct child of directory `d` (that is,
`k = d ++ "/" ++ n` with `n` nonempty and free of `'/'`), its name `n`. -/
def childName (d k : String) : Option String :=
  match splitLast '/' k.data with
  | some (a, b) => if a = d.data ∧ b ≠ [] then some (String.mk b) else none
  | none => none

/-- Filesystem state threaded through the handlers. -/
structure Fs where
  dirs : List String
  files : List (String × List Nat)
  fault : Option String
  deriving DecidableEq, Repr

/-- Replace (or create) the binding of path `p` in an association list. -/
def setFile (p : String) (v : List Nat) (l : List (String × List Nat)) :
    List (String × List Nat) :=
  (p, v) :: l.filter (fun kv => kv.1 ≠ p)

/-- `open(path, 'wb'); f.write(content)`: fails on an injected fault, on a
missing parent directory (`FileNotFoundError`) or on `path` being a
directory (`IsADirectoryError`); otherwise replaces the file's content. -/
def openWrite (path : String) (content : List Nat) (fs : Fs) :
    Except String Fs :=
  match fs.fault with
  | some m => .error m
  | none =>
    if path ∈ fs.dirs then
      .error ("[Errno 21] Is a directory: " ++ path)
    else if dirnameStr path ∈ fs.dirs then
      .ok { fs with files := setFile path content fs.files }
    else
      .error ("[Errno 2] No such file or directory: " ++ path)

/-- The ancestors of a path obtained by repeatedly taking the parent
(fuel-bounded; the parent is strictly shorter, so `p.length` fuel is ample). -/
def ancestors : Nat → String → List String
  | 0, _ => []
  | fuel + 1, p =>
    match splitLast '/' p.data with
    | some (a, _) => String.mk a :: ancestors fuel (String.mk a)
    | none => []

/-- `Path(p).mkdir(parents=True, exist_ok=True)`: add `p` and any missing
ancestors to the set of existing directories; files are untouched. -/
def mkdirParents (p : String) (fs : Fs) : Fs :=
  { fs with dirs := ((p :: ancestors p.length p).filter (· ∉ fs.dirs)) ++ fs.dirs }

/-- `os.listdir d`: the names of the direct children of `d` (files and
subdirectories); raises if `d` does not exist. -/
def listdir (d : String) (fs : Fs) : Except String (List String) :=
  if d ∈ fs.dirs then
    .ok ((fs.files.map Prod.fst ++ fs.dirs).filterMap (childName d))
  else
    .error ("[Errno 2] No such file or directory: " ++ d)

/-- `os.path.isfile`. -/
def isfile (p : String) (fs : Fs) : Bool :=
  (fs.files.lookup p).isSome

/-- `UPLOAD_DIR = "./uploaded_audio"` (module-level constant). -/
def UPLOAD_DIR : String := "./uploaded_audio"

/-- `Path(UPLOAD_DIR).mkdir(parents=True, exist_ok=True)` run at module
import, before any request is served (src/audio.py line 14). -/
def appStartup (fs : Fs) : Fs :=
  mkdirParents UPLOAD_DIR fs

/-- `SUPPORTED_AUDIO_FORMATS` (a Python `set`; modelled as the list of its
elements — only membership is ever used, plus a join whose order the Python
set leaves unspecified). -/
def SUPPORTED_AUDIO_FORMATS : List String :=
  [".mp3", ".wav", ".m4a", ".flac", ".ogg", ".aac", ".wma", ".opus"]

/-- `MAX_FILE_SIZE = 100 * 1024 * 1024` (bound inside `upload_audio`). -/
def MAX_FILE_SIZE : Nat := 100 * 1024 * 1024

/-- Python `round` to an integer, half to even, on exact rationals. -/
def roundHalfEven (x : ℚ) : ℤ :=
  let f := ⌊x⌋
  let r := x - f
  if r < 1 / 2 then f
  else if 1 / 2 < r then f + 1
  else if f % 2 = 0 then f else f + 1

/-- Python `round(x, 2)`. -/
def roundTo2 (x : ℚ) : ℚ :=
  (roundHalfEven (x * 100) : ℚ) / 100

/-- `HTTPException(status_code=..., detail=...)`. -/
structure HTTPError where
  status_code : Nat
  detail : String
  deriving DecidableEq, Repr

/-- `UploadResponse` (pydantic model), `file_size_mb` kept exact in `ℚ`. -/
structure UploadResponse where
  status : String
  filename : String
  file_size_mb : ℚ
  file_path : String
  audio_format : String
  message : String
  deriving DecidableEq, Repr

/-- `StatusResponse` (pydantic model). -/
structure StatusResponse where
  status : String
  message : String
  total_files : Option Nat
  deriving DecidableEq, Repr

/-- One entry of the `GET /files` listing. -/
structure FileEntry where
  filename : String
  size_mb : ℚ
  path : String
  deriving DecidableEq, Repr

/-- The `GET /files` response body. -/
structure FilesListing where
  total_files : Nat
  files : List FileEntry
  deriving DecidableEq, Repr

instance {ε α : Type} [DecidableEq ε] [DecidableEq α] :
    DecidableEq (Except ε α) := fun x y =>
  match x, y with
  | .error a, .error b =>
    if h : a = b then isTrue (h ▸ rfl)
    else isFalse (fun hc => h (by cases hc; rfl))
  | .ok a, .ok b =>
    if h : a = b then isTrue (h ▸ rfl)
    else isFalse (fun hc => h (by cases hc; rfl))
  | .error _, .ok _ => isFalse (fun hc => Except.noConfusion hc)
  | .ok _, .error _ => isFalse (fun hc => Except.noConfusion hc)

/-- `parse_audio(file_content, file_name)`: join the upload directory with
the client-supplied name, write the bytes, return the stored path; any
failure is re-raised as `Exception("Failed to save uploaded Audio: ...")`. -/
def parse_audio (fs : Fs) (file_content : List Nat) (file_name : String) :
    Except String (String × Fs) :=
  let output_path := joinPath UPLOAD_DIR file_name
  match openWrite output_path file_content fs with
  | .ok fs' => .ok (output_path, fs')
  | .error e => .error ("Failed to save uploaded Audio: " ++ e)

/-- The `', '.join(SUPPORTED_AUDIO_FORMATS)` fragment of the 400 detail
(Python set iteration order is unspecified; one order is fixed here). -/
def formatsJoined : String :=
  String.intercalate ", " SUPPORTED_AUDIO_FORMATS

/-- `POST /upload` handler `upload_audio`: validate the extension, the size
ceiling and non-emptiness, persist via `parse_audio`, and on success build
the `UploadResponse`; unexpected exceptions become a 500. Returns the
response (or error) together with the filesystem after the request. -/
def upload_audio (fs : Fs) (filename : String) (file_content : List Nat) :
    Except HTTPError UploadResponse × Fs :=
  let file_extension := lowerStr (extname filename)
  if file_extension ∉ SUPPORTED_AUDIO_FORMATS then
    (.error ⟨400, "Unsupported audio format. Supported formats: " ++ formatsJoined⟩, fs)
  else if file_content.length > MAX_FILE_SIZE then
    (.error ⟨413, "File too large. Maximum size is 100.0MB"⟩, fs)
  else if file_content.length = 0 then
    (.error ⟨400, "Empty file uploaded"⟩, fs)
  else
    let file_size_mb : ℚ := (file_content.length : ℚ) / (1024 * 1024)
    match parse_audio fs file_content filename with
    | .error e => (.error ⟨500, "Internal server error: " ++ e⟩, fs)
    | .ok (file_path, fs') =>
      (.ok { status := "success"
           , filename := basenameStr file_path
           , file_size_mb := roundTo2 file_size_mb
           , file_path := file_path
           , audio_format := lstripDots file_extension
           , message := "Successfully uploaded audio file: " ++ basenameStr file_path },
       fs')

/-- `GET /health` handler `health_check`: create the upload directory when
absent, then count the regular files among its direct children. -/
def health_check (fs : Fs) : Except HTTPError StatusResponse × Fs :=
  let fs1 := if UPLOAD_DIR ∈ fs.dirs then fs else mkdirParents UPLOAD_DIR fs
  match listdir UPLOAD_DIR fs1 with
  | .ok names =>
    let total_files :=
      (names.filter (fun f => isfile (joinPath UPLOAD_DIR f) fs1)).length
    (.ok ⟨"healthy", "Audio Ingestion API is running", some total_files⟩, fs1)
  | .error _ =>
    (.error ⟨503, "Service unhealthy"⟩, fs1)

/-- `GET /files` handler `list_files`: for every direct child of the upload
directory that is a regular file, report its name, size in MB (rounded to 2
decimals) and path. `os.path.isfile` and `os.path.getsize` are the one
lookup here: a present binding gives both existence and length. -/
def list_files (fs : Fs) : Except HTTPError FilesListing :=
  match listdir UPLOAD_DIR fs with
  | .error e => .error ⟨500, "Failed to list files: " ++ e⟩
  | .ok names =>
    let entries := names.filterMap (fun n =>
      let p := joinPath UPLOAD_DIR n
      match fs.files.lookup p with
      | some content =>
        some (⟨n, roundTo2 ((content.length : ℚ) / (1024 * 1024)), p⟩ : FileEntry)
      | none => none)
    .ok ⟨entries.length, entries⟩

/-- HTTP status of a handler outcome (FastAPI maps a normal return to 200). -/
def statusOf {α : Type} : Except HTTPError α → Nat
  | .ok _ => 200
  | .error e => e.status_code

/-- Names of the regular files that are direct children of `d` — the
specification-side count for `GET /health`. -/
def regularFilesIn (d : String) (fs : Fs) : List String :=
  fs.files.filterMap (fun kv => childName d kv.1)

/-- Sample state: storage directory present and empty. -/
def fsReady : Fs := ⟨["./uploaded_audio"], [], none⟩

/-- Sample state: nothing on disk at all. -/
def fsEmpty : Fs := ⟨[], [], none⟩

/-- Sample state: one stored file plus a subdirectory holding a nested file. -/
def fsMixed : Fs :=
  ⟨["./uploaded_audio", "./uploaded_audio/sub"],
   [("./uploaded_audio/a.mp3", [1, 2]), ("./uploaded_audio/sub/x.mp3", [3])],
   none⟩

/-- Sample state: storage directory present, with an injected I/O fault. -/
def fsFaulty : Fs := ⟨["./uploaded_audio"], [], some "disk full"⟩

/-- Sample state: storage directory containing a subdirectory `sub`. -/
def fsWithSub : Fs := ⟨["./uploaded_audio", "./uploaded_audio/sub"], [], none⟩

/-! ## Path lemmas -/

theorem splitLast_eq_none {sep : Char} {l : List Char} (h : sep ∉ l) :
    splitLast sep l = none := by
  induction l with
  | nil => rfl
  | cons c cs ih =>
    simp only [List.mem_cons, not_or] at h
    have hcs : ¬ c = sep := fun hh => h.1 hh.symm
    simp [splitLast, ih h.2, hcs]

theorem not_mem_of_splitLast_eq_none {sep : Char} {l : List Char}
    (h : splitLast sep l = none) : sep ∉ l := by
  induction l with
  | nil => simp
  | cons c cs ih =>
    rw [splitLast] at h
    split at h
    next => exact absurd h (by simp)
    next hc =>
      split at h
      next => exact absurd h (by simp)
      next hcs =>
        simp only [List.mem_cons, not_or]
        exact ⟨fun hh => hcs hh.symm, ih hc⟩

theorem splitLast_append {sep : Char} (a : List Char) {b : List Char}
    (hb : sep ∉ b) : splitLast sep (a ++ sep :: b) = some (a, b) := by
  induction a with
  | nil => simp [splitLast, splitLast_eq_none hb]
  | cons c a ih => simp [splitLast, ih]

theorem splitLast_eq_some {sep : Char} {l a b : List Char}
    (h : splitLast sep l = some (a, b)) : l = a ++ sep :: b ∧ sep ∉ b := by
  induction l generalizing a b with
  | nil => exact absurd h (by simp [splitLast])
  | cons c cs ih =>
    rw [splitLast] at h
    split at h
    next p1 p2 hc =>
      simp only [Option.some.injEq, Prod.mk.injEq] at h
      obtain ⟨h1, h2⟩ := h
      obtain ⟨hl, hm⟩ := ih hc
      subst h1
      subst h2
      exact ⟨by simp [hl], hm⟩
    next hc =>
      split at h
      next hcs =>
        simp only [Option.some.injEq, Prod.mk.injEq] at h
        obtain ⟨h1, h2⟩ := h
        subst h1
        subst h2
        subst hcs
        exact ⟨rfl, not_mem_of_splitLast_eq_none hc⟩
      next => exact absurd h (by simp)

theorem data_triple (d n : String) :
    (d ++ "/" ++ n).data = d.data ++ '/' :: n.data := by
  rw [String.data_append, String.data_append]
  show d.data ++ ['/'] ++ n.data = _
  simp

theorem data_ne_nil {s : String} (h : s ≠ "") : s.data ≠ [] := by
  intro hd
  apply h
  cases s
  simp_all

theorem basenameStr_append (d : String) {n : String} (hn : '/' ∉ n.data) :
    basenameStr (d ++ "/" ++ n) = n := by
  unfold basenameStr
  rw [data_triple, splitLast_append _ hn]

theorem dirnameStr_append (d : String) {n : String} (hn : '/' ∉ n.data) :
    dirnameStr (d ++ "/" ++ n) = d := by
  unfold dirnameStr
  rw [data_triple, splitLast_append _ hn]

theorem childName_append (d : String) {n : String} (hn : '/' ∉ n.data)
    (hne : n ≠ "") : childName d (d ++ "/" ++ n) = some n := by
  unfold childName
  rw [data_triple, splitLast_append _ hn]
  simp [data_ne_nil hne]

theorem childName_inv {d k n : String} (h : childName d k = some n) :
    k = d ++ "/" ++ n ∧ n ≠ "" ∧ '/' ∉ n.data := by
  unfold childName at h
  split at h
  next a b hs =>
    split at h
    next hab =>
      have hn : String.mk b = n := by injection h
      have hnd : n.data = b := by rw [← hn]
      obtain ⟨hk, hmem⟩ := splitLast_eq_some hs
      refine ⟨?_, ?_, hnd ▸ hmem⟩
      · apply String.ext
        rw [data_triple, hk, hab.1, hnd]
      · intro hcon
        apply hab.2
        rw [← hnd, hcon]
    next => exact absurd h (by simp)
  next => exact absurd h (by simp)

theorem joinPath_upload {n : String} (hn : '/' ∉ n.data) :
    joinPath UPLOAD_DIR n = UPLOAD_DIR ++ "/" ++ n := by
  unfold joinPath
  have h1 : ¬ n.data.head? = some '/' := by
    cases hd : n.data with
    | nil => simp
    | cons c cs =>
      simp only [List.head?, Option.some.injEq]
      intro hc
      exact hn (hd ▸ hc ▸ List.mem_cons_self c cs)
  rw [if_neg h1, if_neg (by decide)]

/-! ## Filesystem lemmas -/

theorem lookup_setFile_self (p : String) (v : List Nat)
    (l : List (String × List Nat)) : (setFile p v l).lookup p = some v := by
  simp [setFile, List.lookup]

theorem setFile_setFile (p : String) (u v : List Nat)
    (l : List (String × List Nat)) :
    setFile p v (setFile p u l) = setFile p v l := by
  unfold setFile
  simp [List.filter_filter]

theorem mem_dirs_mkdirParents_self (p : String) (fs : Fs) :
    p ∈ (mkdirParents p fs).dirs := by
  unfold mkdirParents
  by_cases h : p ∈ fs.dirs
  · simp [h]
  · simp [List.mem_filter, h]

theorem mem_dirs_of_mkdirParents {q p : String} {fs : Fs}
    (h : q ∈ (mkdirParents p fs).dirs) :
    q ∈ p :: ancestors p.length p ∨ q ∈ fs.dirs := by
  unfold mkdirParents at h
  rcases List.mem_append.mp h with h | h
  · exact Or.inl (List.mem_filter.mp h).1
  · exact Or.inr h

/-! ## Handler success-path lemmas -/

theorem parse_audio_success {fs : Fs} {name : String} {content : List Nat}
    (hfault : fs.fault = none) (hslash : '/' ∉ name.data)
    (hdir : UPLOAD_DIR ∈ fs.dirs)
    (hnotdir : UPLOAD_DIR ++ "/" ++ name ∉ fs.dirs) :
    parse_audio fs content name =
      .ok (UPLOAD_DIR ++ "/" ++ name,
        { fs with files := setFile (UPLOAD_DIR ++ "/" ++ name) content fs.files }) := by
  unfold parse_audio openWrite
  rw [joinPath_upload hslash]
  simp only [hfault]
  rw [if_neg hnotdir, dirnameStr_append _ hslash, if_pos hdir]

theorem upload_audio_success {fs : Fs} {name : String} {content : List Nat}
    (hext : lowerStr (extname name) ∈ SUPPORTED_AUDIO_FORMATS)
    (hsz : content.length ≤ MAX_FILE_SIZE)
    (hne : content ≠ [])
    (hfault : fs.fault = none)
    (hslash : '/' ∉ name.data)
    (hdir : UPLOAD_DIR ∈ fs.dirs)
    (hnotdir : UPLOAD_DIR ++ "/" ++ name ∉ fs.dirs) :
    upload_audio fs name content =
      (.ok { status := "success"
           , filename := name
           , file_size_mb := roundTo2 ((content.length : ℚ) / (1024 * 1024))
           , file_path := UPLOAD_DIR ++ "/" ++ name
           , audio_format := lstripDots (lowerStr (extname name))
           , message := "Successfully uploaded audio file: " ++ name },
       { fs with files := setFile (UPLOAD_DIR ++ "/" ++ name) content fs.files }) := by
  have hz : content.length ≠ 0 := fun h0 => hne (List.length_eq_zero.mp h0)
  unfold upload_audio
  rw [if_neg (not_not.mpr hext), if_neg (not_lt.mpr hsz), if_neg hz,
    parse_audio_success hfault hslash hdir hnotdir]
  simp [basenameStr_append _ hslash]

theorem upload_400_of_not_supported {name : String}
    (hext : lowerStr (extname name) ∉ SUPPORTED_AUDIO_FORMATS)
    (fs : Fs) (content : List Nat) :
    statusOf (upload_audio fs name content).1 = 400 ∧
      (upload_audio fs name content).2 = fs := by
  unfold upload_audio
  rw [if_pos hext]
  exact ⟨rfl, rfl⟩

theorem name_ne_empty_of_supported {name : String}
    (hext : lowerStr (extname name) ∈ SUPPORTED_AUDIO_FORMATS) : name ≠ "" := by
  rintro rfl
  revert hext
  decide

theorem lstripDots_of_supported {e : String}
    (h : e ∈ SUPPORTED_AUDIO_FORMATS) : lstripDots e = e.drop 1 := by
  fin_cases h <;> rfl

theorem path_ne_of_short {n s : String}
    (h : s.data.length ≤ UPLOAD_DIR.data.length) :
    UPLOAD_DIR ++ "/" ++ n ≠ s := by
  intro hcon
  have hl := congrArg (fun t => t.data.length) hcon
  simp only [data_triple, List.length_append, List.length_cons] at hl
  omega

theorem lookup_isSome_of_mem_keys {l : List (String × List Nat)} {k : String}
    (h : k ∈ l.map Prod.fst) : (l.lookup k).isSome := by
  induction l with
  | nil => simp at h
  | cons kv l ih =>
    obtain ⟨k1, v1⟩ := kv
    rw [List.map_cons, List.mem_cons] at h
    by_cases hk : k1 = k
    · simp [List.lookup, hk]
    · rcases h with h | h
      · exact absurd h.symm hk
      · have hk' : (k == k1) = false :=
          beq_eq_false_iff_ne.mpr (fun hh => hk hh.symm)
        simp [List.lookup, hk', ih h]

/-- The regular-file children selected by `health_check`'s comprehension are
exactly the file bindings whose path decomposes as `UPLOAD_DIR ++ "/" ++ n`:
subdirectory entries are filtered out by `isfile`. -/
theorem listing_children_eq (fs : Fs)
    (hdirs : ∀ p ∈ fs.dirs, ∀ n, childName UPLOAD_DIR p = some n →
      fs.files.lookup p = none) :
    ((fs.files.map Prod.fst ++ fs.dirs).filterMap (childName UPLOAD_DIR)).filter
      (fun n => isfile (joinPath UPLOAD_DIR n) fs) =
    regularFilesIn UPLOAD_DIR fs := by
  have h1 : ((fs.files.map Prod.fst).filterMap (childName UPLOAD_DIR)).filter
      (fun n => isfile (joinPath UPLOAD_DIR n) fs) =
      (fs.files.map Prod.fst).filterMap (childName UPLOAD_DIR) := by
    rw [List.filter_eq_self]
    intro n hn
    obtain ⟨k, hk, hck⟩ := List.mem_filterMap.mp hn
    obtain ⟨hkeq, _, hslash⟩ := childName_inv hck
    unfold isfile
    rw [joinPath_upload hslash, ← hkeq]
    simpa using lookup_isSome_of_mem_keys hk
  have h2 : (fs.dirs.filterMap (childName UPLOAD_DIR)).filter
      (fun n => isfile (joinPath UPLOAD_DIR n) fs) = [] := by
    rw [List.filter_eq_nil_iff]
    intro n hn
    obtain ⟨p, hp, hcp⟩ := List.mem_filterMap.mp hn
    obtain ⟨hpeq, _, hslash⟩ := childName_inv hcp
    unfold isfile
    rw [joinPath_upload hslash, ← hpeq, hdirs p hp n hcp]
    simp
  rw [List.filterMap_append, List.filter_append, h1, h2, List.append_nil,
    List.filterMap_map]
  rfl

/-- `GET /health` in closed form: it always answers `healthy`, the state
after the call is the state with the upload directory ensured, and the
count is the `isfile`-filtered comprehension over `os.listdir`. -/
theorem health_check_eq (fs : Fs) :
    health_check fs =
      (let fs1 := if UPLOAD_DIR ∈ fs.dirs then fs else mkdirParents UPLOAD_DIR fs
       (.ok ⟨"healthy", "Audio Ingestion API is running",
          some (((fs1.files.map Prod.fst ++ fs1.dirs).filterMap
              (childName UPLOAD_DIR)).filter
                (fun f => isfile (joinPath UPLOAD_DIR f) fs1)).length⟩,
        fs1)) := by
  unfold health_check listdir
  by_cases h : UPLOAD_DIR ∈ fs.dirs
  · simp [h]
  · simp [h, mem_dirs_mkdirParents_self]

theorem health_check_snd (fs : Fs) :
    (health_check fs).2 =
      if UPLOAD_DIR ∈ fs.dirs then fs else mkdirParents UPLOAD_DIR fs := by
  rw [health_check_eq]

theorem health_check_files (fs : Fs) :
    (health_check fs).2.files = fs.files := by
  rw [health_check_snd]
  by_cases h : UPLOAD_DIR ∈ fs.dirs <;> simp [h, mkdirParents]

theorem health_check_fault (fs : Fs) :
    (health_check fs).2.fault = fs.fault := by
  rw [health_check_snd]
  by_cases h : UPLOAD_DIR ∈ fs.dirs <;> simp [h, mkdirParents]

theorem health_check_snd_of_mem {fs : Fs} (h : UPLOAD_DIR ∈ fs.dirs) :
    (health_check fs).2 = fs := by
  rw [health_check_snd, if_pos h]

theorem health_check_idem (fs : Fs) :
    health_check ((health_check fs).2) = health_check fs := by
  by_cases h : UPLOAD_DIR ∈ fs.dirs
  · rw [health_check_snd_of_mem h]
  · rw [health_check_snd, if_neg h]
    rw [health_check_eq (mkdirParents UPLOAD_DIR fs), health_check_eq fs]
    simp [h, mem_dirs_mkdirParents_self]

theorem ancestors_upload_dir :
    ancestors UPLOAD_DIR.length UPLOAD_DIR = ["."] := by decide

/-- `GET /health` reports the number of regular files among the direct
children of the storage directory at call time (well-formedness: no
directory path is simultaneously bound as a file). -/
theorem health_total_files {fs : Fs}
    (hdisj : ∀ p ∈ fs.dirs, fs.files.lookup p = none) :
    (health_check fs).1 =
      .ok ⟨"healthy", "Audio Ingestion API is running",
        some (regularFilesIn UPLOAD_DIR fs).length⟩ := by
  rw [health_check_eq]
  by_cases h : UPLOAD_DIR ∈ fs.dirs
  · simp only [if_pos h]
    rw [listing_children_eq fs (fun p hp n _ => hdisj p hp)]
  · simp only [if_neg h]
    have hdirs1 : ∀ p ∈ (mkdirParents UPLOAD_DIR fs).dirs, ∀ n,
        childName UPLOAD_DIR p = some n →
        (mkdirParents UPLOAD_DIR fs).files.lookup p = none := by
      intro p hp n hcn
      rcases mem_dirs_of_mkdirParents hp with hm | hm
      · rw [ancestors_upload_dir] at hm
        rcases List.mem_cons.mp hm with rfl | hm
        · rw [show childName UPLOAD_DIR UPLOAD_DIR = none from by decide] at hcn
          exact absurd hcn (by simp)
        · rcases List.mem_cons.mp hm with rfl | hm
          · rw [show childName UPLOAD_DIR "." = none from by decide] at hcn
            exact absurd hcn (by simp)
          · exact absurd hm (List.not_mem_nil _)
      · exact hdisj p hm
    rw [listing_children_eq (mkdirParents UPLOAD_DIR fs) hdirs1]
    rfl

/-! ## Upload error-path lemmas -/

theorem upload_500_of_parse_error {fs : Fs} {name : String}
    {content : List Nat} {e : String}
    (hext : lowerStr (extname name) ∈ SUPPORTED_AUDIO_FORMATS)
    (hsz : content.length ≤ MAX_FILE_SIZE) (hne : content ≠ [])
    (hp : parse_audio fs content name = .error e) :
    upload_audio fs name content =
      (.error ⟨500, "Internal server error: " ++ e⟩, fs) := by
  have hz : content.length ≠ 0 := fun h0 => hne (List.length_eq_zero.mp h0)
  unfold upload_audio
  rw [if_neg (not_not.mpr hext), if_neg (not_lt.mpr hsz), if_neg hz, hp]

theorem parse_audio_fault {fs : Fs} {name : String} {content : List Nat}
    {m : String} (hfault : fs.fault = some m) :
    parse_audio fs content name =
      .error ("Failed to save uploaded Audio: " ++ m) := by
  unfold parse_audio openWrite
  simp only [hfault]

theorem parse_audio_no_dir {fs : Fs} {name : String} {content : List Nat}
    (hfault : fs.fault = none) (hslash : '/' ∉ name.data)
    (hdirAbsent : UPLOAD_DIR ∉ fs.dirs)
    (hnotdir : UPLOAD_DIR ++ "/" ++ name ∉ fs.dirs) :
    parse_audio fs content name =
      .error ("Failed to save uploaded Audio: " ++
        ("[Errno 2] No such file or directory: " ++
          (UPLOAD_DIR ++ "/" ++ name))) := by
  unfold parse_audio openWrite
  rw [joinPath_upload hslash]
  simp only [hfault]
  rw [if_neg hnotdir, dirnameStr_append _ hslash, if_neg hdirAbsent]

/-- After a successful write of `content` at `UPLOAD_DIR ++ "/" ++ name`,
`GET /files` lists an entry with that name, the rounded size of `content`,
and that path. -/
theorem mem_list_files_after_write {fs : Fs} {name : String}
    {content : List Nat}
    (hslash : '/' ∉ name.data) (hname : name ≠ "")
    (hdir : UPLOAD_DIR ∈ fs.dirs) :
    ∃ L, list_files
        { fs with files := setFile (UPLOAD_DIR ++ "/" ++ name) content fs.files }
        = .ok L ∧
      (⟨name, roundTo2 ((content.length : ℚ) / (1024 * 1024)),
        UPLOAD_DIR ++ "/" ++ name⟩ : FileEntry) ∈ L.files := by
  unfold list_files listdir
  rw [if_pos (show UPLOAD_DIR ∈
    ({ fs with files := setFile (UPLOAD_DIR ++ "/" ++ name) content fs.files} :
      Fs).dirs from hdir)]
  refine ⟨_, rfl, ?_⟩
  have hchild := childName_append UPLOAD_DIR hslash hname
  simp only [setFile, List.map_cons, List.cons_append, List.filterMap_cons,
    hchild, joinPath_upload hslash, List.lookup, beq_self_eq_true]
  simp

/-- Inversion of a successful `parse_audio`: success forces no fault, an
existing parent directory, the output path not being a directory, and pins
down the returned path and state. -/
theorem parse_audio_ok_inv {fs : Fs} {name : String} {content : List Nat}
    {p : String} {fs1 : Fs}
    (h : parse_audio fs content name = .ok (p, fs1)) :
    fs.fault = none ∧ joinPath UPLOAD_DIR name ∉ fs.dirs ∧
    dirnameStr (joinPath UPLOAD_DIR name) ∈ fs.dirs ∧
    p = joinPath UPLOAD_DIR name ∧
    fs1 = { fs with
      files := setFile (joinPath UPLOAD_DIR name) content fs.files } := by
  unfold parse_audio openWrite at h
  simp only [] at h
  split at h
  next x hm =>
    injection h with h3
    have hp1 : p = joinPath UPLOAD_DIR name := (congrArg Prod.fst h3).symm
    have hx : x = fs1 := congrArg Prod.snd h3
    split at hm
    next m hfm => exact absurd hm (fun hc => Except.noConfusion hc)
    next hfm =>
      split at hm
      next hmem => exact absurd hm (fun hc => Except.noConfusion hc)
      next hmem =>
        split at hm
        next hdir =>
          injection hm with h4
          exact ⟨hfm, hmem, hdir, hp1, (h4.trans hx).symm⟩
        next hdir => exact absurd hm (fun hc => Except.noConfusion hc)
  next e hm => exact absurd h (fun hc => Except.noConfusion hc)

/-- Inversion of a successful `POST /upload`: an HTTP 200 outcome forces an
allow-listed extension, a non-empty body within the ceiling, the write
preconditions, and the final state. -/
theorem upload_audio_ok_inv {fs : Fs} {name : String} {content : List Nat}
    {resp : UploadResponse} {fs' : Fs}
    (h : upload_audio fs name content = (.ok resp, fs')) :
    lowerStr (extname name) ∈ SUPPORTED_AUDIO_FORMATS ∧
    content.length ≤ MAX_FILE_SIZE ∧ content ≠ [] ∧
    fs.fault = none ∧
    joinPath UPLOAD_DIR name ∉ fs.dirs ∧
    dirnameStr (joinPath UPLOAD_DIR name) ∈ fs.dirs ∧
    fs' = { fs with
      files := setFile (joinPath UPLOAD_DIR name) content fs.files } := by
  unfold upload_audio at h
  simp only [] at h
  split at h
  next hext =>
    exact absurd (congrArg Prod.fst h) (fun hc => Except.noConfusion hc)
  next hext =>
    rw [not_not] at hext
    split at h
    next hlen =>
      exact absurd (congrArg Prod.fst h) (fun hc => Except.noConfusion hc)
    next hlen =>
      split at h
      next h0 =>
        exact absurd (congrArg Prod.fst h) (fun hc => Except.noConfusion hc)
      next h0 =>
        cases hp : parse_audio fs content name with
        | error e =>
          simp only [hp] at h
          exact absurd (congrArg Prod.fst h) (fun hc => Except.noConfusion hc)
        | ok pr =>
          obtain ⟨p, fs1⟩ := pr
          simp only [hp] at h
          have hfs' : fs1 = fs' := congrArg Prod.snd h
          obtain ⟨hm, hmem, hdir, _, hfs1⟩ := parse_audio_ok_inv hp
          refine ⟨hext, not_lt.mp hlen, fun hc => h0 (by rw [hc]; rfl), hm,
            hmem, hdir, ?_⟩
          rw [← hfs', hfs1]

/-- Success path of `upload_audio` for an arbitrary filename (path
separators included), stated at the write preconditions themselves. -/
theorem upload_audio_success_general {fs : Fs} {name : String}
    {content : List Nat}
    (hext : lowerStr (extname name) ∈ SUPPORTED_AUDIO_FORMATS)
    (hsz : content.length ≤ MAX_FILE_SIZE) (hne : content ≠ [])
    (hfault : fs.fault = none)
    (hpath : joinPath UPLOAD_DIR name ∉ fs.dirs)
    (hdir : dirnameStr (joinPath UPLOAD_DIR name) ∈ fs.dirs) :
    upload_audio fs name content =
      (.ok { status := "success"
           , filename := basenameStr (joinPath UPLOAD_DIR name)
           , file_size_mb := roundTo2 ((content.length : ℚ) / (1024 * 1024))
           , file_path := joinPath UPLOAD_DIR name
           , audio_format := lstripDots (lowerStr (extname name))
           , message := "Successfully uploaded audio file: " ++
               basenameStr (joinPath UPLOAD_DIR name) },
       { fs with
         files := setFile (joinPath UPLOAD_DIR name) content fs.files }) := by
  have hz : content.length ≠ 0 := fun h0 => hne (List.length_eq_zero.mp h0)
  unfold upload_audio parse_audio openWrite
  rw [if_neg (not_not.mpr hext), if_neg (not_lt.mpr hsz), if_neg hz]
  simp only [hfault]
  rw [if_neg hpath, if_pos hdir]

/-! ## Claim theorems -/

/-- C2: an upload whose filename's lower-cased extension is not in the
eight-element allow-list is rejected with HTTP 400 for every content and
every filesystem state, which nothing about the body can influence. -/
theorem unsupported_extension_always_400 {name : String}
    (hext : lowerStr (extname name) ∉ SUPPORTED_AUDIO_FORMATS)
    (fs : Fs) (content : List Nat) :
    statusOf (upload_audio fs name content).1 = 400 ∧
      (upload_audio fs name content).2 = fs :=
  upload_400_of_not_supported hext fs content

/-- C2 witness: `notes.txt` is rejected with 400, content `[1, 2, 3]`. -/
theorem unsupported_extension_always_400_witness :
    lowerStr (extname "notes.txt") ∉ SUPPORTED_AUDIO_FORMATS ∧
      (statusOf (upload_audio fsReady "notes.txt" [1, 2, 3]).1 = 400 ∧
        (upload_audio fsReady "notes.txt" [1, 2, 3]).2 = fsReady) :=
  ⟨by decide, unsupported_extension_always_400 (by decide) fsReady [1, 2, 3]⟩

/-- C3: with an allowed extension, `POST /upload` answers HTTP 413 exactly
when the content length strictly exceeds 100 MiB = 104857600 bytes; in
particular a body of exactly 104857600 bytes is not rejected as too large. -/
theorem oversize_413_iff {name : String}
    (hext : lowerStr (extname name) ∈ SUPPORTED_AUDIO_FORMATS)
    (fs : Fs) (content : List Nat) :
    statusOf (upload_audio fs name content).1 = 413 ↔
      MAX_FILE_SIZE < content.length := by
  unfold upload_audio
  rw [if_neg (not_not.mpr hext)]
  by_cases hl : content.length > MAX_FILE_SIZE
  · rw [if_pos hl]
    simpa [statusOf] using hl
  · rw [if_neg hl]
    constructor
    · intro h413
      exfalso
      by_cases h0 : content.length = 0
      · rw [if_pos h0] at h413
        simp [statusOf] at h413
      · rw [if_neg h0] at h413
        cases hp : parse_audio fs content name with
        | error e =>
          simp only [hp] at h413
          simp [statusOf] at h413
        | ok pr =>
          obtain ⟨path, fs'⟩ := pr
          simp only [hp] at h413
          simp [statusOf] at h413
    · intro h
      exact absurd h hl

/-- C3 witness: `big.mp3` with 104857601 zero bytes, on the ready state. -/
theorem oversize_413_iff_witness :
    lowerStr (extname "big.mp3") ∈ SUPPORTED_AUDIO_FORMATS ∧
      (statusOf (upload_audio fsReady "big.mp3"
          (List.replicate (MAX_FILE_SIZE + 1) 0)).1 = 413 ↔
        MAX_FILE_SIZE < (List.replicate (MAX_FILE_SIZE + 1) (0 : Nat)).length) :=
  ⟨by decide, oversize_413_iff (by decide) fsReady _⟩

/-- C4: a zero-byte upload is rejected with HTTP 400 whatever the filename
(format rejection or empty-file rejection), and no file is written. -/
theorem empty_upload_400_no_write (fs : Fs) (name : String) :
    statusOf (upload_audio fs name []).1 = 400 ∧
      (upload_audio fs name []).2 = fs := by
  unfold upload_audio
  by_cases hext : lowerStr (extname name) ∉ SUPPORTED_AUDIO_FORMATS
  · rw [if_pos hext]
    exact ⟨rfl, rfl⟩
  · rw [if_neg hext,
      if_neg (show ¬ (List.length ([] : List Nat) > MAX_FILE_SIZE) by decide),
      if_pos (show ([] : List Nat).length = 0 from rfl)]
    exact ⟨rfl, rfl⟩

/-- C9: when the disk write fails after all validations passed, the handler
returns HTTP 500 and the underlying error message is embedded in the
response detail (wrapped by `parse_audio` and the handler), with the
filesystem unchanged — the exception is converted, not propagated. -/
theorem write_failure_maps_to_500_with_message {fs : Fs} {name : String}
    {content : List Nat} {m : String}
    (hext : lowerStr (extname name) ∈ SUPPORTED_AUDIO_FORMATS)
    (hsz : content.length ≤ MAX_FILE_SIZE) (hne : content ≠ [])
    (hfault : fs.fault = some m) :
    upload_audio fs name content =
      (.error ⟨500, "Internal server error: " ++
        ("Failed to save uploaded Audio: " ++ m)⟩, fs) :=
  upload_500_of_parse_error hext hsz hne (parse_audio_fault hfault)

/-- C9 witness: a "disk full" fault on `a.mp3` yields the wrapped 500. -/
theorem write_failure_maps_to_500_with_message_witness :
    (lowerStr (extname "a.mp3") ∈ SUPPORTED_AUDIO_FORMATS ∧
      fsFaulty.fault = some "disk full") ∧
    upload_audio fsFaulty "a.mp3" [1, 2] =
      (.error ⟨500, "Internal server error: " ++
        ("Failed to save uploaded Audio: " ++ "disk full")⟩, fsFaulty) :=
  ⟨⟨by decide, rfl⟩,
   write_failure_maps_to_500_with_message (by decide) (by decide) (by decide)
     rfl⟩

/-- C10: a filename with no extension — including names like `".mp3"` whose
only dot is the leading one, which `os.path.splitext` gives an empty
extension — is rejected with HTTP 400 and nothing is written. -/
theorem empty_extension_always_400 {name : String}
    (hno : extname name = "") (fs : Fs) (content : List Nat) :
    statusOf (upload_audio fs name content).1 = 400 ∧
      (upload_audio fs name content).2 = fs :=
  upload_400_of_not_supported (by rw [hno]; decide) fs content

/-- C10 witness: `".mp3"` has an empty extension and is rejected. -/
theorem empty_extension_always_400_witness :
    extname ".mp3" = "" ∧
      (statusOf (upload_audio fsReady ".mp3" [9]).1 = 400 ∧
        (upload_audio fsReady ".mp3" [9]).2 = fsReady) :=
  ⟨by decide, empty_extension_always_400 (by decide) fsReady [9]⟩

/-- C1 counterexample: for a filename containing a path separator the claim
as stated fails — with subdirectory `sub` present, uploading `sub/x.mp3`
returns HTTP 200 and stores the bytes, yet `GET /files` afterwards lists
nothing (the file sits below a subdirectory, which `isfile` filters out). -/
theorem upload_slash_filename_not_listed :
    statusOf (upload_audio fsWithSub "sub/x.mp3" [7]).1 = 200 ∧
    list_files (upload_audio fsWithSub "sub/x.mp3" [7]).2 =
      .ok ⟨0, []⟩ := by decide

/-- C1 (amended: for filenames free of the path separator `'/'`): a valid
upload returns HTTP 200 with status `"success"`, filename equal to the
basename of the stored path (which is the original name), the byte count
over 2^20 rounded to 2 decimals, the stored path, the lower-cased extension
without its leading dot, and the bytes are stored verbatim under the
storage directory, after which `GET /files` lists the file with the same
rounded size. -/
theorem upload_success_contract {fs : Fs} {name : String} {content : List Nat}
    (hext : lowerStr (extname name) ∈ SUPPORTED_AUDIO_FORMATS)
    (hsz : content.length ≤ MAX_FILE_SIZE) (hne : content ≠ [])
    (hslash : '/' ∉ name.data) (hfault : fs.fault = none)
    (hdir : UPLOAD_DIR ∈ fs.dirs)
    (hnotdir : UPLOAD_DIR ++ "/" ++ name ∉ fs.dirs) :
    statusOf (upload_audio fs name content).1 = 200 ∧
    (upload_audio fs name content).1 =
      .ok ⟨"success", basenameStr (UPLOAD_DIR ++ "/" ++ name),
        roundTo2 ((content.length : ℚ) / (1024 * 1024)),
        UPLOAD_DIR ++ "/" ++ name,
        (lowerStr (extname name)).drop 1,
        "Successfully uploaded audio file: " ++ name⟩ ∧
    basenameStr (UPLOAD_DIR ++ "/" ++ name) = name ∧
    (upload_audio fs name content).2.files.lookup (UPLOAD_DIR ++ "/" ++ name)
      = some content ∧
    ∃ L, list_files (upload_audio fs name content).2 = .ok L ∧
      (⟨name, roundTo2 ((content.length : ℚ) / (1024 * 1024)),
        UPLOAD_DIR ++ "/" ++ name⟩ : FileEntry) ∈ L.files := by
  have hname := name_ne_empty_of_supported hext
  have hmain := upload_audio_success hext hsz hne hfault hslash hdir hnotdir
  rw [hmain]
  refine ⟨rfl, ?_, basenameStr_append _ hslash, ?_, ?_⟩
  · simp [basenameStr_append _ hslash, lstripDots_of_supported hext]
  · exact lookup_setFile_self _ _ _
  · exact mem_list_files_after_write hslash hname hdir

/-- C1 witness: `song.mp3` with three bytes on the ready state — 200 and
subsequently listed. -/
theorem upload_success_contract_witness :
    ('/' ∉ "song.mp3".data ∧ UPLOAD_DIR ∈ fsReady.dirs) ∧
    statusOf (upload_audio fsReady "song.mp3" [1, 2, 3]).1 = 200 ∧
    (upload_audio fsReady "song.mp3" [1, 2, 3]).2.files.lookup
      (UPLOAD_DIR ++ "/" ++ "song.mp3") = some [1, 2, 3] :=
  ⟨⟨by decide, by decide⟩,
   (upload_success_contract (by decide) (by decide) (by decide) (by decide)
     rfl (by decide) (by decide)).1,
   (upload_success_contract (by decide) (by decide) (by decide) (by decide)
     rfl (by decide) (by decide)).2.2.2.1⟩

/-- C5 counterexample: with the storage directory absent, a validated
upload does not succeed — the open of the output path raises and the
handler answers 500 with the wrapped error, leaving the state unchanged. -/
theorem upload_500_when_dir_absent :
    upload_audio fsEmpty "x.mp3" [1] =
      (.error ⟨500, "Internal server error: Failed to save uploaded Audio: [Errno 2] No such file or directory: ./uploaded_audio/x.mp3"⟩,
       fsEmpty) := by decide

/-- C5 (amended): the storage directory is created at application startup
(module import), not by the persistence step: a validated upload that finds
the directory absent fails with HTTP 500 and leaves the filesystem
unchanged, while the same upload after startup's mkdir succeeds (200). -/
theorem storage_dir_created_at_startup_not_by_persist
    {fs : Fs} {name : String} {content : List Nat}
    (hext : lowerStr (extname name) ∈ SUPPORTED_AUDIO_FORMATS)
    (hsz : content.length ≤ MAX_FILE_SIZE) (hne : content ≠ [])
    (hslash : '/' ∉ name.data) (hfault : fs.fault = none)
    (hdirAbsent : UPLOAD_DIR ∉ fs.dirs)
    (hnotdir : UPLOAD_DIR ++ "/" ++ name ∉ fs.dirs) :
    statusOf (upload_audio fs name content).1 = 500 ∧
    (upload_audio fs name content).2 = fs ∧
    UPLOAD_DIR ∈ (appStartup fs).dirs ∧
    (appStartup fs).files = fs.files ∧
    statusOf (upload_audio (appStartup fs) name content).1 = 200 := by
  have h500 := upload_500_of_parse_error hext hsz hne
    (parse_audio_no_dir hfault hslash hdirAbsent hnotdir)
  have hnotdir' : UPLOAD_DIR ++ "/" ++ name ∉ (appStartup fs).dirs := by
    intro hmem
    rcases mem_dirs_of_mkdirParents hmem with hm | hm
    · rw [ancestors_upload_dir] at hm
      rcases List.mem_cons.mp hm with heq | hm
      · exact path_ne_of_short (by decide) heq
      · rcases List.mem_cons.mp hm with heq | hm
        · exact path_ne_of_short (by decide) heq
        · exact absurd hm (List.not_mem_nil _)
    · exact hnotdir hm
  have h200 := @upload_audio_success (appStartup fs) name content hext hsz hne
    hfault hslash (mem_dirs_mkdirParents_self _ _) hnotdir'
  rw [h500, h200]
  exact ⟨rfl, rfl, mem_dirs_mkdirParents_self _ _, rfl, rfl⟩

/-- C5 witness: `b.wav` on the empty state — 500 before startup, 200 after. -/
theorem storage_dir_created_at_startup_not_by_persist_witness :
    (UPLOAD_DIR ∉ fsEmpty.dirs ∧ '/' ∉ "b.wav".data) ∧
    statusOf (upload_audio fsEmpty "b.wav" [3, 4]).1 = 500 ∧
    statusOf (upload_audio (appStartup fsEmpty) "b.wav" [3, 4]).1 = 200 :=
  ⟨⟨by decide, by decide⟩,
   (storage_dir_created_at_startup_not_by_persist (by decide) (by decide)
     (by decide) (by decide) rfl (by decide) (by decide)).1,
   (storage_dir_created_at_startup_not_by_persist (by decide) (by decide)
     (by decide) (by decide) rfl (by decide) (by decide)).2.2.2.2⟩

/-- C6: for every filename (no restriction) and every pair of contents `A`
then `B`, if both `POST /upload` requests succeed then the second request —
run from the state the first one left — coincides with uploading `B` by
itself: same response, same final state, and the stored bytes for that
filename are `B` alone (last-write-wins overwrite, not append or error). -/
theorem upload_same_name_overwrites {fs : Fs} {name : String}
    {A B : List Nat} {rA rB : UploadResponse} {fs1 fs2 : Fs}
    (hA : upload_audio fs name A = (.ok rA, fs1))
    (hB : upload_audio fs1 name B = (.ok rB, fs2)) :
    upload_audio fs1 name B = upload_audio fs name B ∧
    fs2 = (upload_audio fs name B).2 ∧
    fs2.files.lookup (joinPath UPLOAD_DIR name) = some B := by
  obtain ⟨hext, hszA, hneA, hfault, hpath, hdir, hfs1⟩ := upload_audio_ok_inv hA
  obtain ⟨_, hszB, hneB, _, _, _, hfs2⟩ := upload_audio_ok_inv hB
  subst hfs1
  have h2 := @upload_audio_success_general
    { fs with files := setFile (joinPath UPLOAD_DIR name) A fs.files }
    name B hext hszB hneB hfault hpath hdir
  have h3 := @upload_audio_success_general fs name B hext hszB hneB hfault
    hpath hdir
  have hkey : upload_audio
      { fs with files := setFile (joinPath UPLOAD_DIR name) A fs.files }
      name B = upload_audio fs name B := by
    rw [h2, h3, setFile_setFile]
  refine ⟨hkey, ?_, ?_⟩
  · subst hfs2
    rw [h3, setFile_setFile]
  · subst hfs2
    exact lookup_setFile_self _ _ _

/-- C6 witness: `song.mp3` uploaded with `[1]` then `[2, 3]` on the ready
state; both requests succeed concretely and the final bytes are `[2, 3]`. -/
theorem upload_same_name_overwrites_witness :
    (upload_audio fsReady "song.mp3" [1] =
        (.ok { status := "success"
             , filename := basenameStr (joinPath UPLOAD_DIR "song.mp3")
             , file_size_mb :=
                 roundTo2 ((([1] : List Nat).length : ℚ) / (1024 * 1024))
             , file_path := joinPath UPLOAD_DIR "song.mp3"
             , audio_format := lstripDots (lowerStr (extname "song.mp3"))
             , message := "Successfully uploaded audio file: " ++
                 basenameStr (joinPath UPLOAD_DIR "song.mp3") },
         { fsReady with
           files := setFile (joinPath UPLOAD_DIR "song.mp3") [1]
             fsReady.files }) ∧
      upload_audio
          { fsReady with
            files := setFile (joinPath UPLOAD_DIR "song.mp3") [1]
              fsReady.files } "song.mp3" [2, 3] =
        (.ok { status := "success"
             , filename := basenameStr (joinPath UPLOAD_DIR "song.mp3")
             , file_size_mb :=
                 roundTo2 ((([2, 3] : List Nat).length : ℚ) / (1024 * 1024))
             , file_path := joinPath UPLOAD_DIR "song.mp3"
             , audio_format := lstripDots (lowerStr (extname "song.mp3"))
             , message := "Successfully uploaded audio file: " ++
                 basenameStr (joinPath UPLOAD_DIR "song.mp3") },
         { fsReady with
           files := setFile (joinPath UPLOAD_DIR "song.mp3") [2, 3]
             (setFile (joinPath UPLOAD_DIR "song.mp3") [1]
               fsReady.files) })) ∧
    (upload_audio
        { fsReady with
          files := setFile (joinPath UPLOAD_DIR "song.mp3") [1] fsReady.files }
        "song.mp3" [2, 3] = upload_audio fsReady "song.mp3" [2, 3] ∧
      ({ fsReady with
         files := setFile (joinPath UPLOAD_DIR "song.mp3") [2, 3]
           (setFile (joinPath UPLOAD_DIR "song.mp3") [1] fsReady.files) } : Fs)
        = (upload_audio fsReady "song.mp3" [2, 3]).2 ∧
      ({ fsReady with
         files := setFile (joinPath UPLOAD_DIR "song.mp3") [2, 3]
           (setFile (joinPath UPLOAD_DIR "song.mp3") [1]
             fsReady.files) } : Fs).files.lookup
          (joinPath UPLOAD_DIR "song.mp3") = some [2, 3]) :=
  ⟨⟨upload_audio_success_general (by decide) (by decide) (by decide) rfl
      (by decide) (by decide),
    upload_audio_success_general (by decide) (by decide) (by decide) rfl
      (by decide) (by decide)⟩,
   upload_same_name_overwrites
     (upload_audio_success_general (by decide) (by decide) (by decide) rfl
       (by decide) (by decide))
     (upload_audio_success_general (by decide) (by decide) (by decide) rfl
       (by decide) (by decide))⟩

/-- C7: every `GET /health` response has status `"healthy"` and
`total_files` equal to the number of regular files (not subdirectories)
that are direct children of the storage directory at call time
(well-formedness: no directory path is also bound as a file). -/
theorem health_reports_regular_file_count {fs : Fs}
    (hdisj : ∀ p ∈ fs.dirs, fs.files.lookup p = none) :
    (health_check fs).1 =
      .ok ⟨"healthy", "Audio Ingestion API is running",
        some (regularFilesIn UPLOAD_DIR fs).length⟩ :=
  health_total_files hdisj

/-- C7 witness: a state with one regular file and one subdirectory holding
a nested file — the count sees only the direct regular file. -/
theorem health_reports_regular_file_count_witness :
    (∀ p ∈ fsMixed.dirs, fsMixed.files.lookup p = none) ∧
    (health_check fsMixed).1 =
      .ok ⟨"healthy", "Audio Ingestion API is running",
        some (regularFilesIn UPLOAD_DIR fsMixed).length⟩ :=
  ⟨by decide, health_reports_regular_file_count (by decide)⟩

/-- C8 counterexample: `GET /health` is not read-only as claimed — on a
state without the storage directory it creates the directory, changing the
filesystem state. -/
theorem health_creates_missing_dir :
    (health_check fsEmpty).2 ≠ fsEmpty := by decide

/-- C8 (amended): `GET /health` never changes stored file contents or the
fault state and is idempotent — a second call returns the same response and
state; when the storage directory already exists the call leaves the
filesystem fully unchanged (its only effect is creating that directory
when it is absent). -/
theorem health_preserves_files_and_is_idempotent (fs : Fs) :
    (health_check fs).2.files = fs.files ∧
    (health_check fs).2.fault = fs.fault ∧
    health_check ((health_check fs).2) = health_check fs ∧
    (UPLOAD_DIR ∈ fs.dirs → (health_check fs).2 = fs) :=
  ⟨health_check_files fs, health_check_fault fs, health_check_idem fs,
   fun h => health_check_snd_of_mem h⟩

/-- C8 witness: on the ready state the directory exists, so the call
leaves the state fully unchanged. -/
theorem health_preserves_files_and_is_idempotent_witness :
    UPLOAD_DIR ∈ fsReady.dirs ∧ (health_check fsReady).2 = fsReady :=
  ⟨by decide,
   (health_preserves_files_and_is_idempotent fsReady).2.2.2 (by decide)⟩

end AudioIngestion
